import Mathlib

/-!
# unshort.link: the request handler `handleUnShort` (server/handler.go)

A shallow embedding of `handleUnShort` and of the helpers it calls in
`server/handler.go`, together with the functions of the Go standard library
the handler relies on: `strings.NewReplacer(...).Replace`,
`strings.TrimPrefix`, `url.Parse` and `(*url.URL).String`. The library
functions are embedded from the source of the Go standard library (package
`strings`; package `net/url` in the form that has `URL.RawFragment` and
`URL.OmitHost`, Go 1.19 to 1.22), function by function and under their Go
names.

Go strings are byte sequences; they are embedded as lists of bytes. What
handler.go uses without defining it (the package variable `serveUrl`, package
`db`, the walker `getUrl`, the embedded templates) is a parameter, gathered
in `Env`; the handler is a function from the request to the sequence of its
effects.
-/

/-- A Go `string`: an immutable sequence of bytes. -/
abbrev GoString := List UInt8

/-- The bytes (UTF-8) of a string literal of the Go source. -/
def lit (s : String) : GoString := s.toUTF8.data.toList

deriving instance DecidableEq for Except

/-! ## Package `strings` -/

namespace strings

/-- Go `strings.HasPrefix(s, prefix)`. -/
def HasPrefix (s pre : GoString) : Bool := pre.isPrefixOf s

/-- Go `strings.HasSuffix(s, suffix)`. -/
def HasSuffix (s suf : GoString) : Bool := suf.isSuffixOf s

/-- Go `strings.TrimPrefix(s, prefix)`: `s` without the leading `prefix`
when it has it, `s` unchanged otherwise. -/
def TrimPrefix (s pre : GoString) : GoString :=
  if HasPrefix s pre then s.drop pre.length else s

/-- Go `strings.Index(s, substr)`: the index of the first instance of
`substr` in `s`, or `none` (Go: -1) when there is none. -/
def Index : GoString → GoString → Option Nat
  | [], sub => if sub.isEmpty then some 0 else none
  | c :: t, sub =>
    if sub.isPrefixOf (c :: t) then some 0 else (Index t sub).map (· + 1)

/-- Go `strings.LastIndex(s, substr)`: the index of the last instance of
`substr` in `s`, or `none` (Go: -1). -/
def LastIndex : GoString → GoString → Option Nat
  | [], sub => if sub.isEmpty then some 0 else none
  | c :: t, sub =>
    match LastIndex t sub with
    | some i => some (i + 1)
    | none => if sub.isPrefixOf (c :: t) then some 0 else none

/-- Go `strings.Contains(s, substr)`. -/
def Contains (s sub : GoString) : Bool := (Index s sub).isSome

/-- Go `strings.Cut(s, sep)`: the text before and after the first instance of
`sep`, and whether `sep` was found; `(s, "", false)` when it was not. -/
def Cut (s sep : GoString) : GoString × GoString × Bool :=
  match Index s sep with
  | some i => (s.take i, s.drop (i + sep.length), true)
  | none => (s, [], false)

/-- Go `strings.Count(s, substr)` for a one-byte `substr`: the number of
occurrences of the byte `c` in `s`. -/
def Count (s : GoString) (c : UInt8) : Nat := s.count c

/-- Go `strings.ToLower` on ASCII text: the letters `A`..`Z` are mapped to
`a`..`z`, every other byte is kept. -/
def ToLower (s : GoString) : GoString :=
  s.map fun c => if 65 ≤ c ∧ c ≤ 90 then c + 32 else c

/-- The lookup of Go's generic `strings.Replacer` at one position: among the
`old` strings that are a prefix of `s`, the one given first in the argument
list of `NewReplacer` wins (it has the highest priority in the trie); the
result is its replacement and the length of the key. -/
def lookup : List (GoString × GoString) → GoString → Option (GoString × Nat)
  | [], _ => none
  | (old, new) :: rest, s =>
    if old.isPrefixOf s then some (new, old.length) else lookup rest s

/-- The scanning loop of Go's generic `strings.Replacer` (the algorithm
`NewReplacer` selects for several multi-byte `old` strings), for non-empty
`old` strings: replacements are performed in the order they appear in the
target string, without overlapping matches. `skip` counts the bytes of an
already matched key that are still to be passed over (`i += keylen`); at a
position with no match the byte is copied and the scan moves on by one. -/
def replaceFrom (oldnew : List (GoString × GoString)) : Nat → GoString → GoString
  | _, [] => []
  | skip + 1, _ :: t => replaceFrom oldnew skip t
  | 0, c :: t =>
    match lookup oldnew (c :: t) with
    | some (val, keylen) => val ++ replaceFrom oldnew (keylen - 1) t
    | none => c :: replaceFrom oldnew 0 t

/-- Go `(*strings.Replacer).Replace(s)` for a replacer built by
`strings.NewReplacer(oldnew...)`. -/
def Replace (oldnew : List (GoString × GoString)) (s : GoString) : GoString :=
  replaceFrom oldnew 0 s

end strings

/-! ## Package `net/url` -/

/-- The byte of an ASCII character literal of the Go source. -/
def ch (c : Char) : UInt8 := c.toNat.toUInt8

namespace url

/-- Go `url.Userinfo`: user name and optional password of a URL. -/
structure Userinfo where
  username : GoString
  password : GoString
  passwordSet : Bool
deriving DecidableEq, Repr

/-- Go `url.URL`: a parsed URL. The general form is
`[scheme:][//[userinfo@]host][/]path[?query][#fragment]`; a URL whose text
after the scheme does not start with a slash is kept as
`scheme:opaque[?query][#fragment]`. -/
structure URL where
  Scheme : GoString := []
  Opaque : GoString := []
  User : Option Userinfo := none
  Host : GoString := []
  Path : GoString := []
  RawPath : GoString := []
  OmitHost : Bool := false
  ForceQuery : Bool := false
  RawQuery : GoString := []
  Fragment : GoString := []
  RawFragment : GoString := []
deriving DecidableEq, Repr

/-- The errors `parse`, `parseAuthority`, `parseHost` and `unescape` return
(in Go: `errors.New` values, `EscapeError`, `InvalidHostError`). -/
inductive ParseError where
  /-- The error "net/url: invalid control character in URL". -/
  | invalidControlCharacter
  /-- The error "missing protocol scheme". -/
  | missingProtocolScheme
  /-- The error "first path segment in URL cannot contain colon". -/
  | firstPathSegmentColon
  /-- An `EscapeError(s)`: invalid URL escape `s`. -/
  | EscapeError (s : GoString)
  /-- An `InvalidHostError(s)`: invalid character `s` in host name. -/
  | InvalidHostError (s : GoString)
  /-- The error "missing ']' in host". -/
  | missingBracket
  /-- The error "invalid port ... after host". -/
  | invalidPort (colonPort : GoString)
  /-- The error "net/url: invalid userinfo". -/
  | invalidUserinfo
deriving DecidableEq, Repr

/-- Go `*url.Error`: the operation, the URL text and the cause, as `Parse`
returns it. -/
structure Error where
  Op : String
  URL : GoString
  Err : ParseError
deriving DecidableEq, Repr

/-- Go `encoding`: the part of a URL a text is escaped for. -/
inductive encoding where
  | encodePath
  | encodePathSegment
  | encodeHost
  | encodeZone
  | encodeUserPassword
  | encodeQueryComponent
  | encodeFragment
deriving DecidableEq, Repr

open encoding

/-- Go `ishex`. -/
def ishex (c : UInt8) : Bool :=
  (ch '0' ≤ c && c ≤ ch '9') || (ch 'a' ≤ c && c ≤ ch 'f') || (ch 'A' ≤ c && c ≤ ch 'F')

/-- Go `unhex`. -/
def unhex (c : UInt8) : UInt8 :=
  if ch '0' ≤ c && c ≤ ch '9' then c - ch '0'
  else if ch 'a' ≤ c && c ≤ ch 'f' then c - ch 'a' + 10
  else if ch 'A' ≤ c && c ≤ ch 'F' then c - ch 'A' + 10
  else 0

/-- Go `shouldEscape(c, mode)`: whether the byte must be escaped when it
appears in the given part of a URL. -/
def shouldEscape (c : UInt8) (mode : encoding) : Bool :=
  -- unreserved characters (alphanum)
  if (ch 'a' ≤ c && c ≤ ch 'z') || (ch 'A' ≤ c && c ≤ ch 'Z') || (ch '0' ≤ c && c ≤ ch '9') then
    false
  else if (mode == encodeHost || mode == encodeZone) &&
      [ch '!', ch '$', ch '&', 0x27, ch '(', ch ')', ch '*', ch '+', ch ',', ch ';', ch '=',
        ch ':', ch '[', ch ']', ch '<', ch '>', 0x22].contains c then
    false
  else if [ch '-', ch '_', ch '.', ch '~'].contains c then
    false
  else if [ch '$', ch '&', ch '+', ch ',', ch '/', ch ':', ch ';', ch '=', ch '?',
      ch '@'].contains c && mode == encodePath then
    c == ch '?'
  else if [ch '$', ch '&', ch '+', ch ',', ch '/', ch ':', ch ';', ch '=', ch '?',
      ch '@'].contains c && mode == encodePathSegment then
    c == ch '/' || c == ch ';' || c == ch ',' || c == ch '?'
  else if [ch '$', ch '&', ch '+', ch ',', ch '/', ch ':', ch ';', ch '=', ch '?',
      ch '@'].contains c && mode == encodeUserPassword then
    c == ch '@' || c == ch '/' || c == ch '?' || c == ch ':'
  else if [ch '$', ch '&', ch '+', ch ',', ch '/', ch ':', ch ';', ch '=', ch '?',
      ch '@'].contains c && mode == encodeQueryComponent then
    true
  else if [ch '$', ch '&', ch '+', ch ',', ch '/', ch ':', ch ';', ch '=', ch '?',
      ch '@'].contains c && mode == encodeFragment then
    false
  else if mode == encodeFragment && [ch '!', ch '(', ch ')', ch '*'].contains c then
    false
  else
    -- everything else must be escaped
    true

/-- The first loop of Go `unescape(s, mode)`: checks that the `%` escapes are
well formed and allowed in `mode`; `none` when the text passes. -/
def unescapeCheck (mode : encoding) : GoString → Option ParseError
  | [] => none
  | c :: t =>
    if c == ch '%' then
      match t with
      | h1 :: h2 :: t2 =>
        if !ishex h1 || !ishex h2 then
          some (.EscapeError [c, h1, h2])
        else if mode == encodeHost && unhex h1 < 8 && [c, h1, h2] != lit "%25" then
          some (.EscapeError [c, h1, h2])
        else if mode == encodeZone && [c, h1, h2] != lit "%25" &&
            (unhex h1 <<< 4 ||| unhex h2) != ch ' ' &&
            shouldEscape (unhex h1 <<< 4 ||| unhex h2) encodeHost then
          some (.EscapeError [c, h1, h2])
        else
          unescapeCheck mode t2
      | _ => some (.EscapeError (c :: t))
    else if c == ch '+' then
      unescapeCheck mode t
    else if (mode == encodeHost || mode == encodeZone) && c < 0x80 &&
        shouldEscape c encodeHost then
      some (.InvalidHostError [c])
    else
      unescapeCheck mode t

/-- The second loop of Go `unescape(s, mode)` on a text that passed the
first: every `%XY` becomes the byte it encodes, and `+` becomes a space in a
query component. -/
def unescapeDecode (mode : encoding) : GoString → GoString
  | [] => []
  | c :: t =>
    if c == ch '%' then
      match t with
      | h1 :: h2 :: t2 => (unhex h1 <<< 4 ||| unhex h2) :: unescapeDecode mode t2
      | _ => []
    else if c == ch '+' then
      (if mode == encodeQueryComponent then ch ' ' else ch '+') :: unescapeDecode mode t
    else
      c :: unescapeDecode mode t

/-- Go `unescape(s, mode)`: the text with its `%XY` escapes decoded, or the
error of a malformed or disallowed escape. -/
def unescape (s : GoString) (mode : encoding) : Except ParseError GoString :=
  match unescapeCheck mode s with
  | some err => .error err
  | none => .ok (unescapeDecode mode s)

/-- The digits of Go's `upperhex = "0123456789ABCDEF"`. -/
def upperhex (n : UInt8) : UInt8 :=
  if n < 10 then ch '0' + n else ch 'A' + (n - 10)

/-- Go `escape(s, mode)`: every byte that `shouldEscape` is written `%XY` in
upper-case hex (a space in a query component as `+`), the others are kept. -/
def escape : GoString → encoding → GoString
  | [], _ => []
  | c :: t, mode =>
    if shouldEscape c mode then
      if c == ch ' ' && mode == encodeQueryComponent then
        ch '+' :: escape t mode
      else
        ch '%' :: upperhex (c >>> 4) :: upperhex (c &&& 15) :: escape t mode
    else
      c :: escape t mode

/-- Go `validEncoded(s, mode)`: whether `s` is a valid encoded path or
fragment. -/
def validEncoded (s : GoString) (mode : encoding) : Bool :=
  s.all fun c =>
    if [ch '!', ch '$', ch '&', 0x27, ch '(', ch ')', ch '*', ch '+', ch ',', ch ';', ch '=',
        ch ':', ch '@'].contains c then true
    else if c == ch '[' || c == ch ']' then true
    else if c == ch '%' then true
    else !shouldEscape c mode

/-- Go `stringContainsCTLByte(s)`: whether `s` has an ASCII control byte. -/
def stringContainsCTLByte (s : GoString) : Bool :=
  s.any fun b => b < ch ' ' || b == 0x7f

/-- The loop of Go `getScheme(rawURL)` at index `i`, with `t` the text from
`i` on. -/
def getSchemeLoop (rawURL : GoString) : Nat → GoString → Except ParseError (GoString × GoString)
  | _, [] => .ok ([], rawURL)
  | i, c :: t =>
    if (ch 'a' ≤ c && c ≤ ch 'z') || (ch 'A' ≤ c && c ≤ ch 'Z') then
      getSchemeLoop rawURL (i + 1) t
    else if (ch '0' ≤ c && c ≤ ch '9') || c == ch '+' || c == ch '-' || c == ch '.' then
      if i == 0 then .ok ([], rawURL) else getSchemeLoop rawURL (i + 1) t
    else if c == ch ':' then
      if i == 0 then .error .missingProtocolScheme
      else .ok (rawURL.take i, rawURL.drop (i + 1))
    else
      -- an invalid character: there is no valid scheme
      .ok ([], rawURL)

/-- Go `getScheme(rawURL)`: splits `scheme:rest`; the scheme is empty when
the text does not start with one. -/
def getScheme (rawURL : GoString) : Except ParseError (GoString × GoString) :=
  getSchemeLoop rawURL 0 rawURL

/-- Go `validOptionalPort(port)`: `port` is empty or `:` followed by
digits. -/
def validOptionalPort (port : GoString) : Bool :=
  match port with
  | [] => true
  | c :: t => c == ch ':' && t.all fun b => !(b < ch '0' || b > ch '9')

/-- Go `validUserinfo(s)`. -/
def validUserinfo (s : GoString) : Bool :=
  s.all fun r =>
    (ch 'A' ≤ r && r ≤ ch 'Z') || (ch 'a' ≤ r && r ≤ ch 'z') || (ch '0' ≤ r && r ≤ ch '9') ||
    [ch '-', ch '.', ch '_', ch ':', ch '~', ch '!', ch '$', ch '&', 0x27, ch '(', ch ')',
      ch '*', ch '+', ch ',', ch ';', ch '=', ch '%', ch '@'].contains r

/-- Go `parseHost(host)`: the host with its escapes decoded; an IP literal in
brackets may carry a zone after `%25`, and a port must be digits. -/
def parseHost (host : GoString) : Except ParseError GoString :=
  if strings.HasPrefix host (lit "[") then
    match strings.LastIndex host (lit "]") with
    | none => .error .missingBracket
    | some i =>
      let colonPort := host.drop (i + 1)
      if !validOptionalPort colonPort then
        .error (.invalidPort colonPort)
      else
        match strings.Index (host.take i) (lit "%25") with
        | some zone =>
          match unescape (host.take zone) encodeHost with
          | .error err => .error err
          | .ok host1 =>
            match unescape ((host.take i).drop zone) encodeZone with
            | .error err => .error err
            | .ok host2 =>
              match unescape (host.drop i) encodeHost with
              | .error err => .error err
              | .ok host3 => .ok (host1 ++ host2 ++ host3)
        | none => unescape host encodeHost
  else
    match strings.LastIndex host (lit ":") with
    | some i =>
      let colonPort := host.drop i
      if !validOptionalPort colonPort then
        .error (.invalidPort colonPort)
      else
        unescape host encodeHost
    | none => unescape host encodeHost

/-- Go `parseAuthority(authority)`: splits `[userinfo@]host`. -/
def parseAuthority (authority : GoString) : Except ParseError (Option Userinfo × GoString) :=
  let i := strings.LastIndex authority (lit "@")
  let hostRes :=
    match i with
    | none => parseHost authority
    | some i => parseHost (authority.drop (i + 1))
  match hostRes with
  | .error err => .error err
  | .ok host =>
    match i with
    | none => .ok (none, host)
    | some i =>
      let userinfo := authority.take i
      if !validUserinfo userinfo then
        .error .invalidUserinfo
      else if !strings.Contains userinfo (lit ":") then
        match unescape userinfo encodeUserPassword with
        | .error err => .error err
        | .ok userinfo => .ok (some ⟨userinfo, [], false⟩, host)
      else
        let (username, password, _) := strings.Cut userinfo (lit ":")
        match unescape username encodeUserPassword with
        | .error err => .error err
        | .ok username =>
          match unescape password encodeUserPassword with
          | .error err => .error err
          | .ok password => .ok (some ⟨username, password, true⟩, host)

/-- Go `(*URL).setPath(p)`: sets `Path` to the decoded `p`, and `RawPath` to
`p` when `p` is not the default encoding of the path. -/
def URL.setPath (u : URL) (p : GoString) : Except ParseError URL :=
  match unescape p encodePath with
  | .error err => .error err
  | .ok path =>
    if p = escape path encodePath then
      .ok { u with Path := path, RawPath := [] }
    else
      .ok { u with Path := path, RawPath := p }

/-- Go `(*URL).setFragment(f)`: like `setPath`, for the fragment. -/
def URL.setFragment (u : URL) (f : GoString) : Except ParseError URL :=
  match unescape f encodeFragment with
  | .error err => .error err
  | .ok frag =>
    if f = escape frag encodeFragment then
      .ok { u with Fragment := frag, RawFragment := [] }
    else
      .ok { u with Fragment := frag, RawFragment := f }

/-- Go `parse(rawURL, viaRequest)` with `viaRequest = false`, as `Parse`
calls it: parses a URL that has no fragment. -/
def parse (rawURL : GoString) : Except ParseError URL :=
  if stringContainsCTLByte rawURL then
    .error .invalidControlCharacter
  else if rawURL = lit "*" then
    .ok { Path := lit "*" }
  else
    match getScheme rawURL with
    | .error err => .error err
    | .ok (scheme, rest) =>
      let url : URL := { Scheme := strings.ToLower scheme }
      let (url, rest) :=
        if strings.HasSuffix rest (lit "?") && strings.Count rest (ch '?') == 1 then
          ({ url with ForceQuery := true }, rest.take (rest.length - 1))
        else
          ({ url with RawQuery := (strings.Cut rest (lit "?")).2.1 },
            (strings.Cut rest (lit "?")).1)
      if !strings.HasPrefix rest (lit "/") && url.Scheme ≠ [] then
        -- rootless paths are kept as opaque
        .ok { url with Opaque := rest }
      else if !strings.HasPrefix rest (lit "/") &&
          strings.Contains (strings.Cut rest (lit "/")).1 (lit ":") then
        -- first path segment has a colon: not allowed in a relative URL
        .error .firstPathSegmentColon
      else if (url.Scheme ≠ [] || !strings.HasPrefix rest (lit "///")) &&
          strings.HasPrefix rest (lit "//") then
        let authority := rest.drop 2
        let (authority, rest) :=
          match strings.Index authority (lit "/") with
          | some i => (authority.take i, authority.drop i)
          | none => (authority, [])
        match parseAuthority authority with
        | .error err => .error err
        | .ok (user, host) => URL.setPath { url with User := user, Host := host } rest
      else if url.Scheme ≠ [] && strings.HasPrefix rest (lit "/") then
        URL.setPath { url with OmitHost := true } rest
      else
        URL.setPath url rest

/-- Go `url.Parse(rawURL)`: cuts off the fragment, parses the rest and sets
the fragment. -/
def Parse (rawURL : GoString) : Except Error URL :=
  let (u, frag, _) := strings.Cut rawURL (lit "#")
  match parse u with
  | .error err => .error ⟨"parse", u, err⟩
  | .ok url =>
    if frag = [] then
      .ok url
    else
      match URL.setFragment url frag with
      | .error err => .error ⟨"parse", rawURL, err⟩
      | .ok url => .ok url

/-- Go `(*URL).EscapedPath()`: `RawPath` when it is a valid encoding of
`Path`, the default encoding of `Path` otherwise. -/
def URL.EscapedPath (u : URL) : GoString :=
  if u.RawPath ≠ [] && validEncoded u.RawPath encodePath &&
      (match unescape u.RawPath encodePath with
        | .ok p => p == u.Path
        | .error _ => false) then
    u.RawPath
  else if u.Path = lit "*" then
    lit "*"
  else
    escape u.Path encodePath

/-- Go `(*URL).EscapedFragment()`. -/
def URL.EscapedFragment (u : URL) : GoString :=
  if u.RawFragment ≠ [] && validEncoded u.RawFragment encodeFragment &&
      (match unescape u.RawFragment encodeFragment with
        | .ok f => f == u.Fragment
        | .error _ => false) then
    u.RawFragment
  else
    escape u.Fragment encodeFragment

/-- Go `(*Userinfo).String()`: `username[:password]`, escaped. -/
def Userinfo.String (u : Userinfo) : GoString :=
  escape u.username encodeUserPassword ++
    (if u.passwordSet then lit ":" ++ escape u.password encodeUserPassword else [])

/-- Go `(*URL).String()`: reassembles the URL into a valid URL string, the
buffer `buf` growing part by part as in the source. -/
def URL.String (u : URL) : GoString :=
  let buf : GoString := if u.Scheme ≠ [] then u.Scheme ++ lit ":" else []
  let buf : GoString :=
    if u.Opaque ≠ [] then
      buf ++ u.Opaque
    else
      let buf : GoString :=
        if u.Scheme ≠ [] || u.Host ≠ [] || u.User.isSome then
          if u.OmitHost && u.Host = [] && u.User.isNone then
            buf
          else
            let buf := if u.Host ≠ [] || u.Path ≠ [] || u.User.isSome then buf ++ lit "//" else buf
            let buf :=
              match u.User with
              | some ui => buf ++ Userinfo.String ui ++ lit "@"
              | none => buf
            if u.Host ≠ [] then buf ++ escape u.Host encodeHost else buf
        else buf
      let path := URL.EscapedPath u
      let buf : GoString :=
        if path ≠ [] && path.head? ≠ some (ch '/') && u.Host ≠ [] then buf ++ lit "/" else buf
      let buf : GoString :=
        if buf.isEmpty && strings.Contains (strings.Cut path (lit "/")).1 (lit ":") then
          buf ++ lit "./"
        else buf
      buf ++ path
  let buf : GoString :=
    if u.ForceQuery || u.RawQuery ≠ [] then buf ++ lit "?" ++ u.RawQuery else buf
  if u.Fragment ≠ [] then buf ++ lit "#" ++ URL.EscapedFragment u else buf

/-! ### Views of `parse` used in the proofs

`parse` cut into its stages; `parse_eq` and `parseAfterScheme_eq` below show
that `parse` is their composition. -/

end url

/-! ## `server/handler.go`: string normalisation -/

/-- The replacer of handler.go, lines 17-21:
`strings.NewReplacer("https://", "https://", "http://", "http://",
"https:/", "https://", "http:/", "http://")`. -/
def schemeReplacer : List (GoString × GoString) :=
  [(lit "https://", lit "https://"), (lit "http://", lit "http://"),
   (lit "https:/", lit "https://"), (lit "http:/", lit "http://")]

/-- The string steps of `handleUnShort` (handler.go, lines 140-141) on the
`baseUrl` left by the `serveUrl` trimming of line 139:
`schemeReplacer.Replace(baseUrl)` followed by `strings.TrimPrefix(_, "/")`. -/
def normalizeString (baseUrl : GoString) : GoString :=
  strings.TrimPrefix (strings.Replace schemeReplacer baseUrl) (lit "/")

/-- The normalisation of `handleUnShort` (handler.go, lines 140-151) on the
`baseUrl` left by line 139: scheme replacement, strip of one leading `/`,
`url.Parse`, and the default scheme `http` when the parsed URL has none. -/
def normalizeUrl (baseUrl : GoString) : Except url.Error url.URL :=
  match url.Parse (normalizeString baseUrl) with
  | .error err => .error err
  | .ok myUrl => .ok (if myUrl.Scheme = [] then { myUrl with Scheme := lit "http" } else myUrl)

/-! ## `server/handler.go`: the handler and its collaborators -/

/-- A Go `error` value as the handler meets it. -/
inductive GoError where
  /-- The `*url.Error` returned by `url.Parse`. -/
  | parse (e : url.Error)
  /-- An error returned by a collaborator (package `db`, the walker `getUrl`,
  `html/template`, `encoding/json`), identified by its message. -/
  | other (msg : String)
  /-- The error `errors.Wrap(cause, message)` of github.com/pkg/errors. -/
  | Wrap (cause : GoError) (message : String)
deriving DecidableEq, Repr

namespace db

/-- Modelled from the spec: the record type `db.UnShortUrl` of package `db`,
whose declaration is not part of handler.go. The handler reads its fields
`ShortUrl` and `LongUrl` (URLs: it calls `.String()` on both and reads
`LongUrl.Host`) and writes `Blacklisted`; the spec's ResolvedLink has the
same three fields. -/
structure UnShortUrl where
  ShortUrl : url.URL
  LongUrl : url.URL
  Blacklisted : Bool
deriving DecidableEq, Repr

end db

/-- The struct `TemplateVars` of handler.go, lines 23-31. `Error` holds
`err.Error()`; the embedding keeps the error value whose message it is
(`none` for the empty string of the zero value). -/
structure TemplateVars where
  ServerUrl : GoString := []
  ShortUrl : GoString := []
  FeedbackBody : GoString := []
  LongUrl : GoString := []
  Error : Option GoError := none
  LinkCount : Int := 0
deriving DecidableEq, Repr

/-- The anonymous struct `handleUnShort` marshals in api mode (handler.go,
lines 177-185): the JSON object `short_link`, `long_link`, `blacklisted`. -/
structure ApiResult where
  ShortLink : GoString
  LongLink : GoString
  Blacklisted : Bool
deriving DecidableEq, Repr

/-- The effects of the handler, in the order they happen: its calls to the
cache (`db.GetUrlFromDB`, `db.SaveUrlToDB`), to the walker (`getUrl`) and to
the blacklist oracle, and what it writes to the `http.ResponseWriter`. The
`logrus.Infof` log lines are not recorded. -/
inductive Event where
  /-- The call `db.GetUrlFromDB(u)`. -/
  | GetUrlFromDB (u : url.URL)
  /-- The call `getUrl(u)`: the redirect walker. -/
  | getUrl (u : url.URL)
  /-- The call `db.SaveUrlToDB(l)`. -/
  | SaveUrlToDB (l : db.UnShortUrl)
  /-- The call `blacklistSource.IsBlacklisted(host)`. -/
  | IsBlacklisted (host : GoString)
  /-- The loading page is written and flushed (`renderLoading`). -/
  | renderLoading
  /-- The call `rw.WriteHeader(status)`. -/
  | WriteHeader (status : Nat)
  /-- The template made of the given static files is executed on `vars`,
  writing to the response. -/
  | Execute (templateFiles : List String) (vars : TemplateVars)
  /-- The fallback `fmt.Fprintf(rw, "An error occured: %s", err)`. -/
  | Fprintf (err : GoError)
  /-- The marshalled JSON object is copied to the response. -/
  | WriteJSON (obj : ApiResult)
  /-- The call `http.Redirect(rw, req, target, status)`. -/
  | Redirect (target : GoString) (status : Nat)
deriving DecidableEq, Repr

/-- What `handleUnShort` uses and handler.go does not define: the package
variable `serveUrl`, the cache functions of package `db`, the walker `getUrl`
(each called at most once per request, so each is a function of its argument
for the duration of one request; a call that returns no error returns a
link), and the outcome of parsing and executing the embedded templates and of
`json.Marshal`. -/
structure Env where
  serveUrl : GoString
  GetUrlFromDB : url.URL → Except GoError db.UnShortUrl
  getUrl : url.URL → Except GoError db.UnShortUrl
  SaveUrlToDB : db.UnShortUrl → Option GoError
  templateParse : List String → Option GoError
  templateExecute : List String → TemplateVars → Option GoError
  jsonMarshal : ApiResult → Option GoError

/-- The function `renderLoading` (handler.go, lines 98-103). -/
def renderLoading : List Event := [.renderLoading]

/-- The function `renderTemplate` (handler.go, lines 123-136): the events it
causes and the error it returns. -/
def renderTemplate (env : Env) (templateFiles : List String) (vars : TemplateVars) :
    List Event × Option GoError :=
  match env.templateParse templateFiles with
  | some err => ([], some (.Wrap err "Could not parse tempalte"))
  | none =>
    match env.templateExecute templateFiles vars with
    | some err => ([.Execute templateFiles vars], some (.Wrap err "Could not execute tempalte"))
    | none => ([.Execute templateFiles vars], none)

/-- The function `handleError` (handler.go, lines 105-121): status 500 and
the error page carrying `err.Error()`. -/
def handleError (env : Env) (err : GoError) (renderLoadingHTML : Bool) : List Event :=
  (if renderLoadingHTML then renderLoading else []) ++
  [.WriteHeader 500] ++
  (match renderTemplate env ["/static/error.html", "/static/main.html"] { Error := some err } with
    | (evs, some _) => evs ++ [.Fprintf err]
    | (evs, none) => evs)

/-- The function `handleShowRedirectPage` (handler.go, lines 61-79). -/
def handleShowRedirectPage (env : Env) (u : db.UnShortUrl) (renderLoadingHTML : Bool) :
    List Event :=
  (if renderLoadingHTML then renderLoading else []) ++
  (match renderTemplate env ["/static/show.html", "/static/main.html"]
      { LongUrl := u.LongUrl.String,
        ShortUrl := u.ShortUrl.String,
        FeedbackBody := lit "\n\n\n-----\nShort Url: " ++ u.ShortUrl.String ++
          lit "\nLong Url: " ++ u.LongUrl.String } with
    | (evs, some err) => evs ++ handleError env err false
    | (evs, none) => evs)

/-- The function `handleShowBlacklistPage` (handler.go, lines 80-96). -/
def handleShowBlacklistPage (env : Env) (url : db.UnShortUrl) (renderLoadingHTML : Bool) :
    List Event :=
  (if renderLoadingHTML then renderLoading else []) ++
  (match renderTemplate env ["/static/blacklist.html", "/static/main.html"]
      { LongUrl := url.LongUrl.String, ShortUrl := url.ShortUrl.String } with
    | (evs, some err) => evs ++ handleError env err false
    | (evs, none) => evs)

/-- Lines 174-207 of `handleUnShort`: how the resolved link `endUrl`, its
`Blacklisted` field already set, is presented (JSON object, blacklist page,
redirect page or raw redirect). -/
def present (env : Env) (endUrl : db.UnShortUrl) (redirect api loadingRendered : Bool) :
    List Event :=
  if api then
    let obj : ApiResult :=
      { ShortLink := endUrl.ShortUrl.String,
        LongLink := endUrl.LongUrl.String,
        Blacklisted := endUrl.Blacklisted }
    match env.jsonMarshal obj with
    | some err => handleError env (.Wrap err "Could not marshal json") (!loadingRendered)
    | none => [.WriteJSON obj]
  else if endUrl.Blacklisted then
    handleShowBlacklistPage env endUrl (!loadingRendered)
  else if !redirect || endUrl.ShortUrl.String = endUrl.LongUrl.String then
    (if !loadingRendered then renderLoading else []) ++
    handleShowRedirectPage env endUrl (!loadingRendered)
  else
    [.Redirect endUrl.LongUrl.String 308]

/-- The function `handleUnShort` (handler.go, lines 138-208). `reqURL` is
`req.URL.String()`, `blacklistSource` the method `IsBlacklisted` of the
argument of that name; the result is the sequence of effects of the call. -/
def handleUnShort (env : Env) (reqURL : GoString) (redirect api loadingRendered : Bool)
    (blacklistSource : GoString → Bool) : List Event :=
  let baseUrl := strings.TrimPrefix reqURL env.serveUrl
  let baseUrl := strings.Replace schemeReplacer baseUrl
  let baseUrl := strings.TrimPrefix baseUrl (lit "/")
  match url.Parse baseUrl with
  | .error err => handleError env (.parse err) (!loadingRendered)
  | .ok myUrl =>
    let myUrl := if myUrl.Scheme = [] then { myUrl with Scheme := lit "http" } else myUrl
    -- Check in DB
    match env.GetUrlFromDB myUrl with
    | .ok endUrl =>
      [.GetUrlFromDB myUrl, .IsBlacklisted endUrl.LongUrl.Host] ++
      present env { endUrl with Blacklisted := blacklistSource endUrl.LongUrl.Host }
        redirect api loadingRendered
    | .error _ =>
      match env.getUrl myUrl with
      | .error err =>
        [.GetUrlFromDB myUrl, .getUrl myUrl] ++ handleError env err (!loadingRendered)
      | .ok endUrl =>
        -- Save to db
        match env.SaveUrlToDB endUrl with
        | some err =>
          [.GetUrlFromDB myUrl, .getUrl myUrl, .SaveUrlToDB endUrl] ++
          handleError env err (!loadingRendered)
        | none =>
          [.GetUrlFromDB myUrl, .getUrl myUrl, .SaveUrlToDB endUrl,
            .IsBlacklisted endUrl.LongUrl.Host] ++
          present env { endUrl with Blacklisted := blacklistSource endUrl.LongUrl.Host }
            redirect api loadingRendered

/-! ## Auxiliary definitions for the statements and proofs -/

/-- Whether the event is a call to a collaborator: the cache, the walker or
the blacklist oracle. -/
def Event.isCall : Event → Bool
  | .GetUrlFromDB _ => true
  | .getUrl _ => true
  | .SaveUrlToDB _ => true
  | .IsBlacklisted _ => true
  | _ => false

/-- Whether the event is a raw HTTP redirect. -/
def Event.isRedirect : Event → Bool
  | .Redirect _ _ => true
  | _ => false

/-- A destination link: `https://example.com/b`. -/
def sampleLong : url.URL := { Scheme := lit "https", Host := lit "example.com", Path := lit "/b" }

/-- An environment with an empty cache: every lookup reports an error, the
walker resolves every URL to `https://example.com/b`, and saving, the
templates and the JSON encoder succeed. -/
def sampleEnv : Env where
  serveUrl := lit "https://unshort.link"
  GetUrlFromDB := fun _ => .error (.other "not found")
  getUrl := fun u => .ok ⟨u, sampleLong, false⟩
  SaveUrlToDB := fun _ => none
  templateParse := fun _ => none
  templateExecute := fun _ _ => none
  jsonMarshal := fun _ => none

/-- The environment whose cache holds every URL, resolved to
`https://example.com/b` and stored with `Blacklisted = true`. -/
def hitEnv : Env :=
  { sampleEnv with GetUrlFromDB := fun u => .ok ⟨u, sampleLong, true⟩ }

/-- The environment whose walker fails on every URL. -/
def walkFailEnv : Env :=
  { sampleEnv with getUrl := fun _ => .error (.other "too many redirects") }

/-- The normalised form of the input `bit.ly/x`: scheme `http`, no host, path
`bit.ly/x`. -/
def bitlyUrl : url.URL := { Scheme := lit "http", Path := lit "bit.ly/x" }

/-- Whether the event is a query of the blacklist oracle. -/
def Event.isBlacklistQuery : Event → Bool
  | .IsBlacklisted _ => true
  | _ => false

theorem lit_https2 : lit "https://" = [104, 116, 116, 112, 115, 58, 47, 47] := by decide
theorem lit_http2 : lit "http://" = [104, 116, 116, 112, 58, 47, 47] := by decide
theorem lit_https1 : lit "https:/" = [104, 116, 116, 112, 115, 58, 47] := by decide
theorem lit_http1 : lit "http:/" = [104, 116, 116, 112, 58, 47] := by decide
theorem lit_slash : lit "/" = [47] := by decide

theorem isPrefixOf_append_false (a b s : GoString) (h : a.isPrefixOf s = false) :
    (a ++ b).isPrefixOf s = false := by
  cases hab : (a ++ b).isPrefixOf s with
  | false => rfl
  | true =>
    have h1 : a ++ b <+: s := List.isPrefixOf_iff_prefix.mp hab
    have h2 : a <+: s := (List.prefix_append a b).trans h1
    rw [List.isPrefixOf_iff_prefix.mpr h2] at h
    exact h

/-- At a position where neither `http:/` nor `https:/` starts, no key of
`schemeReplacer` matches. -/
theorem lookup_none (s : GoString)
    (h1 : (lit "http:/").isPrefixOf s = false) (h2 : (lit "https:/").isPrefixOf s = false) :
    strings.lookup schemeReplacer s = none := by
  have a1 : (lit "https://").isPrefixOf s = false :=
    isPrefixOf_append_false (lit "https:/") (lit "/") s h2
  have a2 : (lit "http://").isPrefixOf s = false :=
    isPrefixOf_append_false (lit "http:/") (lit "/") s h1
  simp [schemeReplacer, strings.lookup, a1, a2, h1, h2]

theorem Contains_false_cons (c : UInt8) (t sub : GoString)
    (h : strings.Contains (c :: t) sub = false) :
    sub.isPrefixOf (c :: t) = false ∧ strings.Contains t sub = false := by
  unfold strings.Contains strings.Index at h
  cases hp : sub.isPrefixOf (c :: t) with
  | true => simp [hp] at h
  | false =>
    simp only [hp, Bool.false_eq_true, if_false] at h
    refine ⟨rfl, ?_⟩
    unfold strings.Contains
    cases hi : strings.Index t sub with
    | none => rfl
    | some i => simp [hi] at h

/-- A text with no occurrence of `http:/` or `https:/` is copied unchanged. -/
theorem replaceFrom_no_match (s : GoString)
    (h1 : strings.Contains s (lit "http:/") = false)
    (h2 : strings.Contains s (lit "https:/") = false) :
    strings.replaceFrom schemeReplacer 0 s = s := by
  induction s with
  | nil => rfl
  | cons c t ih =>
    obtain ⟨p1, q1⟩ := Contains_false_cons c t _ h1
    obtain ⟨p2, q2⟩ := Contains_false_cons c t _ h2
    simp only [strings.replaceFrom, lookup_none (c :: t) p1 p2]
    rw [ih q1 q2]

theorem replaceFrom_skip (oldnew : List (GoString × GoString)) (k s : GoString) :
    strings.replaceFrom oldnew k.length (k ++ s) = strings.replaceFrom oldnew 0 s := by
  induction k with
  | nil => rfl
  | cons c t ih => simpa [strings.replaceFrom] using ih

/-- One step of the scan at a position where a non-empty key matches. -/
theorem replaceFrom_match (oldnew : List (GoString × GoString)) (c : UInt8) (k s v : GoString)
    (h : strings.lookup oldnew (c :: (k ++ s)) = some (v, k.length + 1)) :
    strings.replaceFrom oldnew 0 (c :: (k ++ s)) = v ++ strings.replaceFrom oldnew 0 s := by
  simp only [strings.replaceFrom, h, Nat.add_sub_cancel]
  rw [replaceFrom_skip]

/-- One step of the scan at a byte other than `h`: no key starts there. -/
theorem replaceFrom_other (c : UInt8) (s : GoString) (hc : c ≠ 104) :
    strings.replaceFrom schemeReplacer 0 (c :: s) = c :: strings.replaceFrom schemeReplacer 0 s := by
  have e : strings.lookup schemeReplacer (c :: s) = none := by
    apply lookup_none
    · rw [lit_http1]; simp [List.isPrefixOf, Ne.symm hc]
    · rw [lit_https1]; simp [List.isPrefixOf, Ne.symm hc]
  simp only [strings.replaceFrom, e]

theorem Replace_https2 (s : GoString) :
    strings.Replace schemeReplacer (lit "https://" ++ s) =
      lit "https://" ++ strings.Replace schemeReplacer s := by
  have e := replaceFrom_match schemeReplacer 104 [116, 116, 112, 115, 58, 47, 47] s
    (lit "https://") (by simp [schemeReplacer, strings.lookup, lit_https2])
  simpa [strings.Replace, lit_https2] using e

theorem Replace_http2 (s : GoString) :
    strings.Replace schemeReplacer (lit "http://" ++ s) =
      lit "http://" ++ strings.Replace schemeReplacer s := by
  have e := replaceFrom_match schemeReplacer 104 [116, 116, 112, 58, 47, 47] s
    (lit "http://") (by simp [schemeReplacer, strings.lookup, lit_https2, lit_http2])
  simpa [strings.Replace, lit_http2] using e

theorem Replace_https1 (s : GoString) (h : strings.HasPrefix s (lit "/") = false) :
    strings.Replace schemeReplacer (lit "https:/" ++ s) =
      lit "https://" ++ strings.Replace schemeReplacer s := by
  simp only [strings.HasPrefix, lit_slash] at h
  have e := replaceFrom_match schemeReplacer 104 [116, 116, 112, 115, 58, 47] s
    (lit "https://")
    (by simp [schemeReplacer, strings.lookup, lit_https2, lit_http2, lit_https1, h])
  simpa [strings.Replace, lit_https1] using e

theorem Replace_http1 (s : GoString) (h : strings.HasPrefix s (lit "/") = false) :
    strings.Replace schemeReplacer (lit "http:/" ++ s) =
      lit "http://" ++ strings.Replace schemeReplacer s := by
  simp only [strings.HasPrefix, lit_slash] at h
  have e := replaceFrom_match schemeReplacer 104 [116, 116, 112, 58, 47] s
    (lit "http://")
    (by simp [schemeReplacer, strings.lookup, lit_https2, lit_http2, lit_https1, lit_http1, h])
  simpa [strings.Replace, lit_http1] using e

theorem Replace_slash (s : GoString) :
    strings.Replace schemeReplacer (lit "/" ++ s) = lit "/" ++ strings.Replace schemeReplacer s := by
  simpa [strings.Replace, lit_slash] using replaceFrom_other 47 s (by decide)

theorem TrimPrefix_slash_https (s : GoString) :
    strings.TrimPrefix (lit "https://" ++ s) (lit "/") = lit "https://" ++ s := by
  simp [strings.TrimPrefix, strings.HasPrefix, lit_https2, lit_slash]

theorem TrimPrefix_slash_http (s : GoString) :
    strings.TrimPrefix (lit "http://" ++ s) (lit "/") = lit "http://" ++ s := by
  simp [strings.TrimPrefix, strings.HasPrefix, lit_http2, lit_slash]

theorem TrimPrefix_slash_slash (s : GoString) :
    strings.TrimPrefix (lit "/" ++ s) (lit "/") = s := by
  simp [strings.TrimPrefix, strings.HasPrefix, lit_slash]

/-! ## C1: partial scheme markers are expanded -/

/-- C1. For every `rest` that does not begin with `/` and has no occurrence
of `http:/` or `https:/`, the string normalisation of `handleUnShort`
(`schemeReplacer.Replace`, then `TrimPrefix "/"`) maps `https:/` + rest to
`https://` + rest and `http:/` + rest to `http://` + rest, also when the input
carries one leading `/`; and `https:/example.com/a` normalises to
`https://example.com/a`. -/
theorem C1_partial_scheme_expanded (rest : GoString)
    (h0 : strings.HasPrefix rest (lit "/") = false)
    (h1 : strings.Contains rest (lit "http:/") = false)
    (h2 : strings.Contains rest (lit "https:/") = false) :
    normalizeString (lit "https:/" ++ rest) = lit "https://" ++ rest ∧
    normalizeString (lit "http:/" ++ rest) = lit "http://" ++ rest ∧
    normalizeString (lit "/" ++ (lit "https:/" ++ rest)) = lit "https://" ++ rest ∧
    normalizeString (lit "/" ++ (lit "http:/" ++ rest)) = lit "http://" ++ rest ∧
    normalizeString (lit "https:/example.com/a") = lit "https://example.com/a" := by
  have hr : strings.Replace schemeReplacer rest = rest := replaceFrom_no_match rest h1 h2
  refine ⟨?_, ?_, ?_, ?_, by decide⟩
  · rw [normalizeString, Replace_https1 rest h0, hr, TrimPrefix_slash_https]
  · rw [normalizeString, Replace_http1 rest h0, hr, TrimPrefix_slash_http]
  · rw [normalizeString, Replace_slash, Replace_https1 rest h0, hr, TrimPrefix_slash_slash]
  · rw [normalizeString, Replace_slash, Replace_http1 rest h0, hr, TrimPrefix_slash_slash]

/-- C1 at `rest = example.com/a`, the example of the spec. -/
theorem C1_partial_scheme_expanded_witness :
    strings.HasPrefix (lit "example.com/a") (lit "/") = false ∧
    strings.Contains (lit "example.com/a") (lit "http:/") = false ∧
    strings.Contains (lit "example.com/a") (lit "https:/") = false ∧
    normalizeString (lit "https:/" ++ lit "example.com/a") = lit "https://" ++ lit "example.com/a" :=
  ⟨by decide, by decide, by decide,
    (C1_partial_scheme_expanded (lit "example.com/a") (by decide) (by decide) (by decide)).1⟩

/-! ## C3: a duplicated scheme prefix is kept, not collapsed -/

/-- C3, as stated, fails: `https://https://x` and `http://http://x` are left
unchanged by the string normalisation; they do not become `https://x` and
`http://x`. -/
theorem C3_duplicate_not_collapsed :
    normalizeString (lit "https://https://" ++ lit "x") = lit "https://https://x" ∧
    normalizeString (lit "https://https://" ++ lit "x") ≠ lit "https://" ++ lit "x" ∧
    normalizeString (lit "http://http://" ++ lit "x") = lit "http://http://x" ∧
    normalizeString (lit "http://http://" ++ lit "x") ≠ lit "http://" ++ lit "x" := by
  decide

/-- C3, amended. For every `rest`, the string normalisation keeps both scheme
prefixes of an input that begins with `https://https://` (or
`http://http://`): the result is `https://https://` (resp. `http://http://`)
followed by the replacement of `rest`. The pairs `https://` to `https://` and
`http://` to `http://` of `schemeReplacer` map a full scheme marker to itself
at every position. -/
theorem C3_duplicate_scheme_kept (rest : GoString) :
    normalizeString (lit "https://" ++ (lit "https://" ++ rest)) =
      lit "https://" ++ (lit "https://" ++ strings.Replace schemeReplacer rest) ∧
    normalizeString (lit "http://" ++ (lit "http://" ++ rest)) =
      lit "http://" ++ (lit "http://" ++ strings.Replace schemeReplacer rest) := by
  constructor
  · rw [normalizeString, Replace_https2, Replace_https2, TrimPrefix_slash_https]
  · rw [normalizeString, Replace_http2, Replace_http2, TrimPrefix_slash_http]

/-! ## Lemmas on the effects of the handler -/

theorem renderTemplate_events (env : Env) (fs : List String) (vars : TemplateVars) :
    ∀ ev ∈ (renderTemplate env fs vars).1, ev.isCall = false ∧ ev.isRedirect = false := by
  intro ev hev
  unfold renderTemplate at hev
  split at hev
  · simp at hev
  · split at hev <;> simp at hev <;> subst hev <;> exact ⟨rfl, rfl⟩

/-- The error response calls no collaborator and redirects nowhere. -/
theorem handleError_events (env : Env) (err : GoError) (b : Bool) :
    ∀ ev ∈ handleError env err b, ev.isCall = false ∧ ev.isRedirect = false := by
  intro ev hev
  unfold handleError renderLoading at hev
  have hr := renderTemplate_events env ["/static/error.html", "/static/main.html"]
    { Error := some err }
  generalize renderTemplate env ["/static/error.html", "/static/main.html"]
    { Error := some err } = r at hev hr
  obtain ⟨evs, o⟩ := r
  simp only [List.mem_append] at hev
  rcases hev with (hev | hev) | hev
  · split at hev
    · simp at hev; subst hev; exact ⟨rfl, rfl⟩
    · simp at hev
  · simp at hev; subst hev; exact ⟨rfl, rfl⟩
  · cases o with
    | none => exact hr ev hev
    | some e =>
      simp only [List.mem_append] at hev
      rcases hev with hev | hev
      · exact hr ev hev
      · simp at hev; subst hev; exact ⟨rfl, rfl⟩

theorem renderLoading_events (b : Bool) :
    ∀ ev ∈ (if b then renderLoading else []), ev.isCall = false ∧ ev.isRedirect = false := by
  intro ev hev
  cases b <;> simp [renderLoading] at hev
  subst hev; exact ⟨rfl, rfl⟩

theorem handleShowRedirectPage_events (env : Env) (u : db.UnShortUrl) (b : Bool) :
    ∀ ev ∈ handleShowRedirectPage env u b, ev.isCall = false ∧ ev.isRedirect = false := by
  intro ev hev
  unfold handleShowRedirectPage at hev
  rw [List.mem_append] at hev
  rcases hev with hev | hev
  · exact renderLoading_events b ev hev
  · split at hev
    · rename_i evs err heq
      rw [List.mem_append] at hev
      rcases hev with hev | hev
      · have := renderTemplate_events env _ _ ev (by rw [heq]; exact hev)
        exact this
      · exact handleError_events env err false ev hev
    · rename_i evs heq
      exact renderTemplate_events env _ _ ev (by rw [heq]; exact hev)

theorem handleShowBlacklistPage_events (env : Env) (u : db.UnShortUrl) (b : Bool) :
    ∀ ev ∈ handleShowBlacklistPage env u b, ev.isCall = false ∧ ev.isRedirect = false := by
  intro ev hev
  unfold handleShowBlacklistPage at hev
  rw [List.mem_append] at hev
  rcases hev with hev | hev
  · exact renderLoading_events b ev hev
  · split at hev
    · rename_i evs err heq
      rw [List.mem_append] at hev
      rcases hev with hev | hev
      · exact renderTemplate_events env _ _ ev (by rw [heq]; exact hev)
      · exact handleError_events env err false ev hev
    · rename_i evs heq
      exact renderTemplate_events env _ _ ev (by rw [heq]; exact hev)

/-- Presenting a link calls no collaborator. -/
theorem present_no_call (env : Env) (l : db.UnShortUrl) (redirect api lr : Bool) :
    ∀ ev ∈ present env l redirect api lr, ev.isCall = false := by
  intro ev hev
  unfold present at hev
  split at hev
  · simp only at hev
    split at hev
    · exact (handleError_events env _ _ ev hev).1
    · simp at hev; subst hev; rfl
  · split at hev
    · exact (handleShowBlacklistPage_events env _ _ ev hev).1
    · split at hev
      · rw [List.mem_append] at hev
        rcases hev with hev | hev
        · exact (renderLoading_events _ ev hev).1
        · exact (handleShowRedirectPage_events env _ _ ev hev).1
      · simp at hev; subst hev; rfl

/-- Presenting a link issues a raw redirect exactly in the last branch of
`handleUnShort`, and then to `LongUrl.String()` with status 308. -/
theorem present_redirect_iff (env : Env) (l : db.UnShortUrl) (redirect api lr : Bool)
    (t : GoString) (s : Nat) :
    Event.Redirect t s ∈ present env l redirect api lr ↔
      (api = false ∧ l.Blacklisted = false ∧ redirect = true ∧
        l.ShortUrl.String ≠ l.LongUrl.String ∧ t = l.LongUrl.String ∧ s = 308) := by
  constructor
  · intro hev
    unfold present at hev
    split at hev
    · simp only at hev
      split at hev
      · exact absurd (handleError_events env _ _ _ hev).2 (by simp [Event.isRedirect])
      · simp at hev
    · rename_i hapi
      split at hev
      · exact absurd (handleShowBlacklistPage_events env _ _ _ hev).2 (by simp [Event.isRedirect])
      · rename_i hbl
        split at hev
        · rw [List.mem_append] at hev
          rcases hev with hev | hev
          · exact absurd (renderLoading_events _ _ hev).2 (by simp [Event.isRedirect])
          · exact absurd (handleShowRedirectPage_events env _ _ _ hev).2
              (by simp [Event.isRedirect])
        · rename_i hred
          simp at hev
          simp at hred
          refine ⟨by simpa using hapi, by simpa using hbl, hred.1, hred.2, hev.1, hev.2⟩
  · rintro ⟨h1, h2, h3, h4, h5, h6⟩
    subst h5 h6
    simp [present, h1, h2, h3, h4]

/-- The three string steps of `handleUnShort` are `normalizeString` after
the `serveUrl` trimming, and lines 140-151 are `normalizeUrl`. -/
theorem handleUnShort_parse_error (env : Env) (reqURL : GoString) (redirect api lr : Bool)
    (bl : GoString → Bool) (e : url.Error)
    (h : url.Parse (normalizeString (strings.TrimPrefix reqURL env.serveUrl)) = .error e) :
    handleUnShort env reqURL redirect api lr bl = handleError env (.parse e) (!lr) := by
  unfold normalizeString at h
  simp only [handleUnShort, h]

theorem normalizeUrl_ok_iff (base : GoString) (u : url.URL) :
    normalizeUrl base = .ok u ↔
      ∃ p, url.Parse (normalizeString base) = .ok p ∧
        u = (if p.Scheme = [] then { p with Scheme := lit "http" } else p) := by
  unfold normalizeUrl
  cases hp : url.Parse (normalizeString base) with
  | error e => simp
  | ok p =>
    simp only [Except.ok.injEq, exists_eq_left']
    exact eq_comm

theorem handleUnShort_hit (env : Env) (reqURL : GoString) (redirect api lr : Bool)
    (bl : GoString → Bool) (u : url.URL) (c : db.UnShortUrl)
    (hn : normalizeUrl (strings.TrimPrefix reqURL env.serveUrl) = .ok u)
    (hit : env.GetUrlFromDB u = .ok c) :
    handleUnShort env reqURL redirect api lr bl =
      [.GetUrlFromDB u, .IsBlacklisted c.LongUrl.Host] ++
        present env { c with Blacklisted := bl c.LongUrl.Host } redirect api lr := by
  obtain ⟨p, hp, rfl⟩ := (normalizeUrl_ok_iff _ _).mp hn
  unfold normalizeString at hp
  simp only [handleUnShort, hp, hit]

theorem handleUnShort_walk_error (env : Env) (reqURL : GoString) (redirect api lr : Bool)
    (bl : GoString → Bool) (u : url.URL) (e err : GoError)
    (hn : normalizeUrl (strings.TrimPrefix reqURL env.serveUrl) = .ok u)
    (miss : env.GetUrlFromDB u = .error e) (hw : env.getUrl u = .error err) :
    handleUnShort env reqURL redirect api lr bl =
      [.GetUrlFromDB u, .getUrl u] ++ handleError env err (!lr) := by
  obtain ⟨p, hp, rfl⟩ := (normalizeUrl_ok_iff _ _).mp hn
  unfold normalizeString at hp
  simp only [handleUnShort, hp, miss, hw]

theorem handleUnShort_save_error (env : Env) (reqURL : GoString) (redirect api lr : Bool)
    (bl : GoString → Bool) (u : url.URL) (e err : GoError) (l : db.UnShortUrl)
    (hn : normalizeUrl (strings.TrimPrefix reqURL env.serveUrl) = .ok u)
    (miss : env.GetUrlFromDB u = .error e) (hw : env.getUrl u = .ok l)
    (hs : env.SaveUrlToDB l = some err) :
    handleUnShort env reqURL redirect api lr bl =
      [.GetUrlFromDB u, .getUrl u, .SaveUrlToDB l] ++ handleError env err (!lr) := by
  obtain ⟨p, hp, rfl⟩ := (normalizeUrl_ok_iff _ _).mp hn
  unfold normalizeString at hp
  simp only [handleUnShort, hp, miss, hw, hs]

theorem handleUnShort_fresh (env : Env) (reqURL : GoString) (redirect api lr : Bool)
    (bl : GoString → Bool) (u : url.URL) (e : GoError) (l : db.UnShortUrl)
    (hn : normalizeUrl (strings.TrimPrefix reqURL env.serveUrl) = .ok u)
    (miss : env.GetUrlFromDB u = .error e) (hw : env.getUrl u = .ok l)
    (hs : env.SaveUrlToDB l = none) :
    handleUnShort env reqURL redirect api lr bl =
      [.GetUrlFromDB u, .getUrl u, .SaveUrlToDB l, .IsBlacklisted l.LongUrl.Host] ++
        present env { l with Blacklisted := bl l.LongUrl.Host } redirect api lr := by
  obtain ⟨p, hp, rfl⟩ := (normalizeUrl_ok_iff _ _).mp hn
  unfold normalizeString at hp
  simp only [handleUnShort, hp, miss, hw, hs]

/-! ## C2: the looked-up URL has a scheme, `http` by default -/

/-- C2. For every request whose `baseUrl` parses (to `p`), `handleUnShort`
first calls `db.GetUrlFromDB` on a URL `u` with a non-empty scheme: `u` is `p`
with scheme `http` when `p` has no scheme, and `p` itself otherwise; on a
lookup error the next call is the walker `getUrl` on the same `u`. Whenever
the `baseUrl` is `bit.ly/x`, the URL looked up has the string form
`http://bit.ly/x`. -/
theorem C2_lookup_url_has_scheme (env : Env) (reqURL : GoString) (redirect api lr : Bool)
    (bl : GoString → Bool) (p : url.URL)
    (hp : url.Parse (normalizeString (strings.TrimPrefix reqURL env.serveUrl)) = .ok p) :
    (∃ u rest,
      handleUnShort env reqURL redirect api lr bl = Event.GetUrlFromDB u :: rest ∧
      (∀ e, env.GetUrlFromDB u = .error e → ∃ rest2, rest = Event.getUrl u :: rest2) ∧
      u.Scheme ≠ [] ∧
      (p.Scheme = [] → u = { p with Scheme := lit "http" }) ∧
      (p.Scheme ≠ [] → u = p)) ∧
    (strings.TrimPrefix reqURL env.serveUrl = lit "bit.ly/x" →
      ∃ u rest, handleUnShort env reqURL redirect api lr bl = Event.GetUrlFromDB u :: rest ∧
        u.String = lit "http://bit.ly/x") := by
  have hn : normalizeUrl (strings.TrimPrefix reqURL env.serveUrl) =
      .ok (if p.Scheme = [] then { p with Scheme := lit "http" } else p) :=
    (normalizeUrl_ok_iff _ _).mpr ⟨p, hp, rfl⟩
  generalize hu : (if p.Scheme = [] then { p with Scheme := lit "http" } else p) = u at hn
  have key : ∃ rest, handleUnShort env reqURL redirect api lr bl = Event.GetUrlFromDB u :: rest ∧
      (∀ e, env.GetUrlFromDB u = .error e → ∃ rest2, rest = Event.getUrl u :: rest2) := by
    cases hg : env.GetUrlFromDB u with
    | ok c =>
      refine ⟨_, by rw [handleUnShort_hit env reqURL redirect api lr bl u c hn hg]; rfl, ?_⟩
      intro e he; cases he
    | error e =>
      cases hw : env.getUrl u with
      | error err =>
        exact ⟨_, by rw [handleUnShort_walk_error env reqURL redirect api lr bl u e err hn hg hw]; rfl,
          fun _ _ => ⟨_, rfl⟩⟩
      | ok l =>
        cases hs : env.SaveUrlToDB l with
        | some err =>
          exact ⟨_, by
            rw [handleUnShort_save_error env reqURL redirect api lr bl u e err l hn hg hw hs]; rfl,
            fun _ _ => ⟨_, rfl⟩⟩
        | none =>
          exact ⟨_, by
            rw [handleUnShort_fresh env reqURL redirect api lr bl u e l hn hg hw hs]; rfl,
            fun _ _ => ⟨_, rfl⟩⟩
  obtain ⟨rest, h1, h2⟩ := key
  refine ⟨⟨u, rest, h1, h2, ?_, ?_, ?_⟩, ?_⟩
  · subst hu
    split
    · show lit "http" ≠ []
      decide
    · assumption
  · intro h; subst hu; rw [if_pos h]
  · intro h; subst hu; rw [if_neg h]
  · intro hb
    refine ⟨u, rest, h1, ?_⟩
    rw [hb] at hp
    have e : url.Parse (normalizeString (lit "bit.ly/x")) = .ok { Path := lit "bit.ly/x" } := by
      decide
    rw [e] at hp
    cases hp
    subst hu
    decide

/-- C2 on the request `/bit.ly/x` against an empty cache. -/
theorem C2_lookup_url_has_scheme_witness :
    url.Parse (normalizeString (strings.TrimPrefix (lit "/bit.ly/x") sampleEnv.serveUrl)) =
      .ok { Path := lit "bit.ly/x" } ∧
    (∃ u rest,
      handleUnShort sampleEnv (lit "/bit.ly/x") false true false (fun _ => false) =
        Event.GetUrlFromDB u :: rest ∧
      (∀ e, sampleEnv.GetUrlFromDB u = .error e → ∃ rest2, rest = Event.getUrl u :: rest2) ∧
      u.Scheme ≠ [] ∧
      (([] : GoString) = [] → u = { Scheme := lit "http", Path := lit "bit.ly/x" }) ∧
      (([] : GoString) ≠ [] → u = { Path := lit "bit.ly/x" })) :=
  ⟨by decide,
    (C2_lookup_url_has_scheme sampleEnv (lit "/bit.ly/x") false true false (fun _ => false)
      { Path := lit "bit.ly/x" } (by decide)).1⟩

/-! ## C5: a cache hit neither walks nor writes -/

/-- C5. For every request whose normalised URL `u` is found by
`db.GetUrlFromDB` (entry `c`), the effects of `handleUnShort` are the lookup,
the blacklist query and the presentation of `c` with its `Blacklisted` field
recomputed: no event is a call of the walker `getUrl` or of `db.SaveUrlToDB`,
and the presented link has the `ShortUrl` and `LongUrl` of `c`. -/
theorem C5_cache_hit_no_walk_no_write (env : Env) (reqURL : GoString)
    (redirect api lr : Bool) (bl : GoString → Bool) (u : url.URL) (c : db.UnShortUrl)
    (hn : normalizeUrl (strings.TrimPrefix reqURL env.serveUrl) = .ok u)
    (hit : env.GetUrlFromDB u = .ok c) :
    ∃ shown : db.UnShortUrl,
      shown.ShortUrl = c.ShortUrl ∧ shown.LongUrl = c.LongUrl ∧
      handleUnShort env reqURL redirect api lr bl =
        [.GetUrlFromDB u, .IsBlacklisted c.LongUrl.Host] ++ present env shown redirect api lr ∧
      (∀ v, Event.getUrl v ∉ handleUnShort env reqURL redirect api lr bl) ∧
      (∀ l, Event.SaveUrlToDB l ∉ handleUnShort env reqURL redirect api lr bl) := by
  have h := handleUnShort_hit env reqURL redirect api lr bl u c hn hit
  refine ⟨{ c with Blacklisted := bl c.LongUrl.Host }, rfl, rfl, h, ?_, ?_⟩
  · intro v hv
    rw [h] at hv
    simp only [List.cons_append, List.nil_append, List.mem_cons, reduceCtorEq, false_or] at hv
    exact absurd (present_no_call env _ _ _ _ _ hv) (by simp [Event.isCall])
  · intro l hl
    rw [h] at hl
    simp only [List.cons_append, List.nil_append, List.mem_cons, reduceCtorEq, false_or] at hl
    exact absurd (present_no_call env _ _ _ _ _ hl) (by simp [Event.isCall])

/-- C5 on the request `/bit.ly/x` against a cache that holds it. -/
theorem C5_cache_hit_no_walk_no_write_witness :
    normalizeUrl (strings.TrimPrefix (lit "/bit.ly/x") hitEnv.serveUrl) = .ok bitlyUrl ∧
    hitEnv.GetUrlFromDB bitlyUrl = .ok ⟨bitlyUrl, sampleLong, true⟩ ∧
    ∃ shown : db.UnShortUrl,
      shown.ShortUrl = bitlyUrl ∧ shown.LongUrl = sampleLong ∧
      handleUnShort hitEnv (lit "/bit.ly/x") true false false (fun _ => false) =
        [.GetUrlFromDB bitlyUrl, .IsBlacklisted sampleLong.Host] ++
          present hitEnv shown true false false ∧
      (∀ v, Event.getUrl v ∉
        handleUnShort hitEnv (lit "/bit.ly/x") true false false (fun _ => false)) ∧
      (∀ l, Event.SaveUrlToDB l ∉
        handleUnShort hitEnv (lit "/bit.ly/x") true false false (fun _ => false)) :=
  ⟨by decide, by decide,
    C5_cache_hit_no_walk_no_write hitEnv (lit "/bit.ly/x") true false false (fun _ => false)
      bitlyUrl ⟨bitlyUrl, sampleLong, true⟩ (by decide) (by decide)⟩

/-! ## C6: on a miss the cache is written exactly when the walk succeeds -/

/-- C6. On a cache miss (the lookup of the normalised URL `u` returns an
error): if `getUrl` returns a link, `db.SaveUrlToDB` is called with exactly
that link right after the walk, before anything is written to the response,
and it is not called again; if `getUrl` returns an error, the effects are the
lookup, the walk and the error response for the walker's own error, with no
call of `db.SaveUrlToDB` and no blacklist query. -/
theorem C6_miss_saves_iff_walk_succeeds (env : Env) (reqURL : GoString)
    (redirect api lr : Bool) (bl : GoString → Bool) (u : url.URL) (e : GoError)
    (hn : normalizeUrl (strings.TrimPrefix reqURL env.serveUrl) = .ok u)
    (miss : env.GetUrlFromDB u = .error e) :
    (∀ l, env.getUrl u = .ok l →
      ∃ rest, handleUnShort env reqURL redirect api lr bl =
          [.GetUrlFromDB u, .getUrl u, .SaveUrlToDB l] ++ rest ∧
        ∀ l2, Event.SaveUrlToDB l2 ∉ rest) ∧
    (∀ err, env.getUrl u = .error err →
      handleUnShort env reqURL redirect api lr bl =
          [.GetUrlFromDB u, .getUrl u] ++ handleError env err (!lr) ∧
        (∀ l, Event.SaveUrlToDB l ∉ handleUnShort env reqURL redirect api lr bl) ∧
        (∀ h, Event.IsBlacklisted h ∉ handleUnShort env reqURL redirect api lr bl)) := by
  constructor
  · intro l hw
    cases hs : env.SaveUrlToDB l with
    | some err =>
      refine ⟨_, handleUnShort_save_error env reqURL redirect api lr bl u e err l hn miss hw hs, ?_⟩
      intro l2 h2
      exact absurd (handleError_events env _ _ _ h2).1 (by simp [Event.isCall])
    | none =>
      refine ⟨[.IsBlacklisted l.LongUrl.Host] ++
        present env { l with Blacklisted := bl l.LongUrl.Host } redirect api lr, ?_, ?_⟩
      · rw [handleUnShort_fresh env reqURL redirect api lr bl u e l hn miss hw hs]; rfl
      · intro l2 h2
        simp only [List.cons_append, List.nil_append, List.mem_cons, reduceCtorEq, false_or] at h2
        exact absurd (present_no_call env _ _ _ _ _ h2) (by simp [Event.isCall])
  · intro err hw
    have h := handleUnShort_walk_error env reqURL redirect api lr bl u e err hn miss hw
    refine ⟨h, ?_, ?_⟩
    · intro l hl
      rw [h] at hl
      simp only [List.cons_append, List.nil_append, List.mem_cons, reduceCtorEq, false_or] at hl
      exact absurd (handleError_events env _ _ _ hl).1 (by simp [Event.isCall])
    · intro x hx
      rw [h] at hx
      simp only [List.cons_append, List.nil_append, List.mem_cons, reduceCtorEq, false_or] at hx
      exact absurd (handleError_events env _ _ _ hx).1 (by simp [Event.isCall])

/-- C6 on the request `/bit.ly/x` against an empty cache, with a walker that
fails. -/
theorem C6_miss_saves_iff_walk_succeeds_witness :
    normalizeUrl (strings.TrimPrefix (lit "/bit.ly/x") walkFailEnv.serveUrl) = .ok bitlyUrl ∧
    walkFailEnv.GetUrlFromDB bitlyUrl = .error (.other "not found") ∧
    walkFailEnv.getUrl bitlyUrl = .error (.other "too many redirects") ∧
    handleUnShort walkFailEnv (lit "/bit.ly/x") true false false (fun _ => false) =
      [.GetUrlFromDB bitlyUrl, .getUrl bitlyUrl] ++
        handleError walkFailEnv (.other "too many redirects") (!false) :=
  ⟨by decide, by decide, by decide,
    ((C6_miss_saves_iff_walk_succeeds walkFailEnv (lit "/bit.ly/x") true false false
      (fun _ => false) bitlyUrl (.other "not found") (by decide) (by decide)).2
        (.other "too many redirects") (by decide)).1⟩

/-! ## C7: every lookup error falls back to the walk -/

theorem present_filter_query (env : Env) (l : db.UnShortUrl) (redirect api lr : Bool) :
    (present env l redirect api lr).filter Event.isBlacklistQuery = [] := by
  rw [List.filter_eq_nil_iff]
  intro ev hev
  have := present_no_call env l redirect api lr ev hev
  cases ev <;> simp_all [Event.isCall, Event.isBlacklistQuery]

/-- C8. For every successful resolution, on a cache hit as well as after a
fresh walk whose result was saved, with `link` the cached or walked record
(whatever its `Blacklisted` field): the link `handleUnShort` presents has
`Blacklisted` equal to `blacklistSource.IsBlacklisted(link.LongUrl.Host)` and
the `ShortUrl` and `LongUrl` of `link`, and the oracle is queried exactly
once, with the host of `LongUrl`. -/
theorem C8_blacklisted_computed_live (env : Env) (reqURL : GoString)
    (redirect api lr : Bool) (bl : GoString → Bool) (u : url.URL) (link : db.UnShortUrl)
    (hn : normalizeUrl (strings.TrimPrefix reqURL env.serveUrl) = .ok u)
    (hres : env.GetUrlFromDB u = .ok link ∨
      ∃ e, env.GetUrlFromDB u = .error e ∧ env.getUrl u = .ok link ∧
        env.SaveUrlToDB link = none) :
    ∃ (pre : List Event) (shown : db.UnShortUrl),
      handleUnShort env reqURL redirect api lr bl =
        pre ++ [.IsBlacklisted link.LongUrl.Host] ++ present env shown redirect api lr ∧
      shown.Blacklisted = bl link.LongUrl.Host ∧
      shown.ShortUrl = link.ShortUrl ∧ shown.LongUrl = link.LongUrl ∧
      (handleUnShort env reqURL redirect api lr bl).filter Event.isBlacklistQuery =
        [.IsBlacklisted link.LongUrl.Host] := by
  rcases hres with hit | ⟨e, miss, hw, hs⟩
  · have h := handleUnShort_hit env reqURL redirect api lr bl u link hn hit
    refine ⟨[.GetUrlFromDB u], { link with Blacklisted := bl link.LongUrl.Host },
      by rw [h]; rfl, rfl, rfl, rfl, ?_⟩
    rw [h]
    simp [List.filter_cons, Event.isBlacklistQuery, present_filter_query]
  · have h := handleUnShort_fresh env reqURL redirect api lr bl u e link hn miss hw hs
    refine ⟨[.GetUrlFromDB u, .getUrl u, .SaveUrlToDB link],
      { link with Blacklisted := bl link.LongUrl.Host }, by rw [h]; rfl, rfl, rfl, rfl, ?_⟩
    rw [h]
    simp [List.filter_cons, Event.isBlacklistQuery, present_filter_query]

/-- C8 on the request `/bit.ly/x` against a cache that holds it with
`Blacklisted = true`, while the oracle now clears every host. -/
theorem C8_blacklisted_computed_live_witness :
    normalizeUrl (strings.TrimPrefix (lit "/bit.ly/x") hitEnv.serveUrl) = .ok bitlyUrl ∧
    hitEnv.GetUrlFromDB bitlyUrl = .ok ⟨bitlyUrl, sampleLong, true⟩ ∧
    ∃ (pre : List Event) (shown : db.UnShortUrl),
      handleUnShort hitEnv (lit "/bit.ly/x") true true false (fun _ => false) =
        pre ++ [.IsBlacklisted sampleLong.Host] ++ present hitEnv shown true true false ∧
      shown.Blacklisted = false ∧
      shown.ShortUrl = bitlyUrl ∧ shown.LongUrl = sampleLong ∧
      (handleUnShort hitEnv (lit "/bit.ly/x") true true false
        (fun _ => false)).filter Event.isBlacklistQuery = [.IsBlacklisted sampleLong.Host] :=
  ⟨by decide, by decide,
    C8_blacklisted_computed_live hitEnv (lit "/bit.ly/x") true true false (fun _ => false)
      bitlyUrl ⟨bitlyUrl, sampleLong, true⟩ (by decide) (Or.inl (by decide))⟩

/-! ## C9: what counts as a malformed URL -/

/-- C9, as stated, fails: the empty string and the bare `/` are not
malformed for `url.Parse`; they normalise to the URL `http:` with an empty
host, and `handleUnShort` goes on to the cache lookup and the walk. -/
theorem C9_empty_host_is_looked_up :
    normalizeUrl (lit "") = .ok { Scheme := lit "http" } ∧
    normalizeUrl (lit "/") = .ok { Scheme := lit "http" } ∧
    (({ Scheme := lit "http" } : url.URL).Host = []) ∧
    handleUnShort sampleEnv (lit "/") false true false (fun _ => false) =
      [.GetUrlFromDB { Scheme := lit "http" }, .getUrl { Scheme := lit "http" },
        .SaveUrlToDB ⟨{ Scheme := lit "http" }, sampleLong, false⟩,
        .IsBlacklisted (lit "example.com"),
        .WriteJSON ⟨lit "http:", lit "https://example.com/b", false⟩] := by
  decide

/-- C9, amended. Normalisation signals an error exactly when `url.Parse`
rejects the normalised string (for example for a malformed `%` escape or a
control character; an empty host is not an error): for every input on which
it does, `handleUnShort` answers with the error response for that error and
calls neither the cache lookup, nor the walker, nor the cache write, nor the
blacklist oracle. -/
theorem C9_parse_error_no_calls (env : Env) (reqURL : GoString) (redirect api lr : Bool)
    (bl : GoString → Bool) (e : url.Error) :
    (normalizeUrl (strings.TrimPrefix reqURL env.serveUrl) = .error e ↔
      url.Parse (normalizeString (strings.TrimPrefix reqURL env.serveUrl)) = .error e) ∧
    (normalizeUrl (strings.TrimPrefix reqURL env.serveUrl) = .error e →
      handleUnShort env reqURL redirect api lr bl = handleError env (.parse e) (!lr) ∧
      ∀ ev ∈ handleUnShort env reqURL redirect api lr bl, ev.isCall = false) ∧
    normalizeUrl (lit "%zz") = .error ⟨"parse", lit "%zz", .EscapeError (lit "%zz")⟩ ∧
    normalizeUrl [0x7f] = .error ⟨"parse", [0x7f], .invalidControlCharacter⟩ := by
  have hiff : normalizeUrl (strings.TrimPrefix reqURL env.serveUrl) = .error e ↔
      url.Parse (normalizeString (strings.TrimPrefix reqURL env.serveUrl)) = .error e := by
    unfold normalizeUrl
    cases url.Parse (normalizeString (strings.TrimPrefix reqURL env.serveUrl)) with
    | error e2 => rfl
    | ok p => simp
  refine ⟨hiff, ?_, by decide, by decide⟩
  intro herr
  have h := handleUnShort_parse_error env reqURL redirect api lr bl e (hiff.mp herr)
  refine ⟨h, ?_⟩
  intro ev hev
  rw [h] at hev
  exact (handleError_events env _ _ ev hev).1

/-- C9, amended, on the request `/%zz`, a malformed escape. -/
theorem C9_parse_error_no_calls_witness :
    normalizeUrl (strings.TrimPrefix (lit "/%zz") sampleEnv.serveUrl) =
      .error ⟨"parse", lit "%zz", .EscapeError (lit "%zz")⟩ ∧
    handleUnShort sampleEnv (lit "/%zz") true false false (fun _ => false) =
      handleError sampleEnv (.parse ⟨"parse", lit "%zz", .EscapeError (lit "%zz")⟩) (!false) :=
  ⟨by decide,
    ((C9_parse_error_no_calls sampleEnv (lit "/%zz") true false false (fun _ => false)
      ⟨"parse", lit "%zz", .EscapeError (lit "%zz")⟩).2.1 (by decide)).1⟩

/-! ## C10: when a raw redirect is issued -/

/-- The raw redirect `http.Redirect(rw, req, t, s)` is among the effects of
`handleUnShort` exactly when the resolution succeeded with a link that the
last branch of the handler redirects to. -/
theorem handleUnShort_redirect_iff (env : Env) (reqURL : GoString) (redirect api lr : Bool)
    (bl : GoString → Bool) (t : GoString) (s : Nat) :
    Event.Redirect t s ∈ handleUnShort env reqURL redirect api lr bl ↔
      ∃ u link,
        normalizeUrl (strings.TrimPrefix reqURL env.serveUrl) = .ok u ∧
        (env.GetUrlFromDB u = .ok link ∨
          ∃ e, env.GetUrlFromDB u = .error e ∧ env.getUrl u = .ok link ∧
            env.SaveUrlToDB link = none) ∧
        redirect = true ∧ api = false ∧ bl link.LongUrl.Host = false ∧
        link.ShortUrl.String ≠ link.LongUrl.String ∧
        t = link.LongUrl.String ∧ s = 308 := by
  constructor
  · intro hev
    cases hn : normalizeUrl (strings.TrimPrefix reqURL env.serveUrl) with
    | error e =>
      have hp : url.Parse (normalizeString (strings.TrimPrefix reqURL env.serveUrl)) =
          .error e := by
        unfold normalizeUrl at hn
        split at hn
        · rename_i err h; cases hn; exact h
        · cases hn
      rw [handleUnShort_parse_error env reqURL redirect api lr bl e hp] at hev
      exact absurd (handleError_events env _ _ _ hev).2 (by simp [Event.isRedirect])
    | ok u =>
      cases hg : env.GetUrlFromDB u with
      | ok c =>
        rw [handleUnShort_hit env reqURL redirect api lr bl u c hn hg] at hev
        simp only [List.cons_append, List.nil_append, List.mem_cons, reduceCtorEq,
          false_or] at hev
        obtain ⟨h1, h2, h3, h4, h5, h6⟩ := (present_redirect_iff env _ _ _ _ _ _).mp hev
        exact ⟨u, c, rfl, Or.inl hg, h3, h1, h2, h4, h5, h6⟩
      | error e =>
        cases hw : env.getUrl u with
        | error err =>
          rw [handleUnShort_walk_error env reqURL redirect api lr bl u e err hn hg hw] at hev
          simp only [List.cons_append, List.nil_append, List.mem_cons, reduceCtorEq,
            false_or] at hev
          exact absurd (handleError_events env _ _ _ hev).2 (by simp [Event.isRedirect])
        | ok l =>
          cases hs : env.SaveUrlToDB l with
          | some err =>
            rw [handleUnShort_save_error env reqURL redirect api lr bl u e err l hn hg hw hs]
              at hev
            simp only [List.cons_append, List.nil_append, List.mem_cons, reduceCtorEq,
              false_or] at hev
            exact absurd (handleError_events env _ _ _ hev).2 (by simp [Event.isRedirect])
          | none =>
            rw [handleUnShort_fresh env reqURL redirect api lr bl u e l hn hg hw hs] at hev
            simp only [List.cons_append, List.nil_append, List.mem_cons, reduceCtorEq,
              false_or] at hev
            obtain ⟨h1, h2, h3, h4, h5, h6⟩ := (present_redirect_iff env _ _ _ _ _ _).mp hev
            exact ⟨u, l, rfl, Or.inr ⟨e, hg, hw, hs⟩, h3, h1, h2, h4, h5, h6⟩
  · rintro ⟨u, link, hn, hres, h3, h1, h2, h4, h5, h6⟩
    have hp : Event.Redirect t s ∈
        present env { link with Blacklisted := bl link.LongUrl.Host } redirect api lr :=
      (present_redirect_iff env _ _ _ _ _ _).mpr ⟨h1, h2, h3, h4, h5, h6⟩
    rcases hres with hit | ⟨e, miss, hw, hs⟩
    · rw [handleUnShort_hit env reqURL redirect api lr bl u link hn hit]
      exact List.mem_append_right _ hp
    · rw [handleUnShort_fresh env reqURL redirect api lr bl u e link hn miss hw hs]
      exact List.mem_append_right _ hp

/-- C10. `handleUnShort` issues the raw redirect `http.Redirect(rw, req, t,
s)` exactly when the resolution succeeded (a cache hit, or a walk whose
result was saved) with a link such that `redirect = true`, `api = false`, the
live blacklist verdict on `LongUrl.Host` is false and `ShortUrl.String()`
differs from `LongUrl.String()`; then `t` is `LongUrl.String()` and `s` is
308. Consequently no redirect is issued for a blacklisted destination, which
gets the blacklist page, or in api mode the JSON object with `blacklisted`
true; and none for a link whose `ShortUrl.String()` equals its
`LongUrl.String()`. -/
theorem C10_redirect_exactly_when (env : Env) (reqURL : GoString) (redirect api lr : Bool)
    (bl : GoString → Bool) :
    (∀ t s, Event.Redirect t s ∈ handleUnShort env reqURL redirect api lr bl ↔
      ∃ u link,
        normalizeUrl (strings.TrimPrefix reqURL env.serveUrl) = .ok u ∧
        (env.GetUrlFromDB u = .ok link ∨
          ∃ e, env.GetUrlFromDB u = .error e ∧ env.getUrl u = .ok link ∧
            env.SaveUrlToDB link = none) ∧
        redirect = true ∧ api = false ∧ bl link.LongUrl.Host = false ∧
        link.ShortUrl.String ≠ link.LongUrl.String ∧
        t = link.LongUrl.String ∧ s = 308) ∧
    (∀ u link,
      normalizeUrl (strings.TrimPrefix reqURL env.serveUrl) = .ok u →
      (env.GetUrlFromDB u = .ok link ∨
        ∃ e, env.GetUrlFromDB u = .error e ∧ env.getUrl u = .ok link ∧
          env.SaveUrlToDB link = none) →
      (bl link.LongUrl.Host = true →
        (∀ t s, Event.Redirect t s ∉ handleUnShort env reqURL redirect api lr bl) ∧
        ∃ pre, (∀ ev ∈ pre, ev.isCall = true) ∧
          handleUnShort env reqURL redirect api lr bl = pre ++
            (if api then
              match env.jsonMarshal ⟨link.ShortUrl.String, link.LongUrl.String, true⟩ with
              | some err => handleError env (.Wrap err "Could not marshal json") (!lr)
              | none => [.WriteJSON ⟨link.ShortUrl.String, link.LongUrl.String, true⟩]
            else
              handleShowBlacklistPage env ⟨link.ShortUrl, link.LongUrl, true⟩ (!lr))) ∧
      (link.ShortUrl.String = link.LongUrl.String →
        ∀ t s, Event.Redirect t s ∉ handleUnShort env reqURL redirect api lr bl)) := by
  refine ⟨fun t s => handleUnShort_redirect_iff env reqURL redirect api lr bl t s, ?_⟩
  intro u link hn hres
  have huniq : ∀ u2 link2,
      normalizeUrl (strings.TrimPrefix reqURL env.serveUrl) = .ok u2 →
      (env.GetUrlFromDB u2 = .ok link2 ∨
        ∃ e, env.GetUrlFromDB u2 = .error e ∧ env.getUrl u2 = .ok link2 ∧
          env.SaveUrlToDB link2 = none) → link2 = link := by
    intro u2 link2 hn2 hres2
    rw [hn] at hn2
    cases hn2
    rcases hres with h | ⟨e, h, hw, _⟩ <;> rcases hres2 with h2 | ⟨e2, h2, hw2, _⟩
    · rw [h] at h2; cases h2; rfl
    · rw [h] at h2; cases h2
    · rw [h] at h2; cases h2
    · rw [hw] at hw2; cases hw2; rfl
  constructor
  · intro hb
    constructor
    · intro t s hmem
      obtain ⟨u2, link2, hn2, hres2, _, _, hb2, _⟩ :=
        (handleUnShort_redirect_iff env reqURL redirect api lr bl t s).mp hmem
      rw [huniq u2 link2 hn2 hres2, hb] at hb2
      cases hb2
    · rcases hres with hit | ⟨e, miss, hw, hs⟩
      · refine ⟨[.GetUrlFromDB u, .IsBlacklisted link.LongUrl.Host], ?_, ?_⟩
        · intro ev hev
          simp only [List.mem_cons, List.mem_singleton, List.not_mem_nil, or_false] at hev
          rcases hev with rfl | rfl <;> rfl
        · rw [handleUnShort_hit env reqURL redirect api lr bl u link hn hit, hb]
          cases api <;> simp [present]
      · refine ⟨[.GetUrlFromDB u, .getUrl u, .SaveUrlToDB link,
          .IsBlacklisted link.LongUrl.Host], ?_, ?_⟩
        · intro ev hev
          simp only [List.mem_cons, List.mem_singleton, List.not_mem_nil, or_false] at hev
          rcases hev with rfl | rfl | rfl | rfl <;> rfl
        · rw [handleUnShort_fresh env reqURL redirect api lr bl u e link hn miss hw hs, hb]
          cases api <;> simp [present]
  · intro heq t s hmem
    obtain ⟨u2, link2, hn2, hres2, _, _, _, hne, _⟩ :=
      (handleUnShort_redirect_iff env reqURL redirect api lr bl t s).mp hmem
    rw [huniq u2 link2 hn2 hres2] at hne
    exact hne heq

/-- C10 on the request `/bit.ly/x` against a cache that holds it: with the
oracle clearing every host the redirect to `https://example.com/b` with
status 308 is issued; with the oracle flagging every host it is not. -/
theorem C10_redirect_exactly_when_witness :
    Event.Redirect (lit "https://example.com/b") 308 ∈
      handleUnShort hitEnv (lit "/bit.ly/x") true false false (fun _ => false) ∧
    normalizeUrl (strings.TrimPrefix (lit "/bit.ly/x") hitEnv.serveUrl) = .ok bitlyUrl ∧
    hitEnv.GetUrlFromDB bitlyUrl = .ok ⟨bitlyUrl, sampleLong, true⟩ ∧
    (∀ t s, Event.Redirect t s ∉
      handleUnShort hitEnv (lit "/bit.ly/x") true false false (fun _ => true)) :=
  ⟨((C10_redirect_exactly_when hitEnv (lit "/bit.ly/x") true false false (fun _ => false)).1
      (lit "https://example.com/b") 308).mpr
      ⟨bitlyUrl, ⟨bitlyUrl, sampleLong, true⟩, by decide, Or.inl (by decide), rfl, rfl, rfl,
        by decide, by decide, rfl⟩,
    by decide, by decide,
    (((C10_redirect_exactly_when hitEnv (lit "/bit.ly/x") true false false (fun _ => true)).2
      bitlyUrl ⟨bitlyUrl, sampleLong, true⟩ (by decide) (Or.inl (by decide))).1 rfl).1⟩

/-! ## Idempotence of the string normalisation -/

/-- Why the amended C4 asks for a plain host and for default-encoded path and
fragment. `http://a/b c` normalises to a URL with `RawPath = /b c`, whose
string form `http://a/b%20c` normalises to the same URL with an empty
`RawPath`; `http://a/#x y` behaves so for `RawFragment`; the host
`[::1%25é]`, with a non-ASCII byte in its zone, is printed as
`[::1%25%C3%A9]`, which `url.Parse` rejects; and without a host the second
normalisation can fail too, as for `a%20b`. -/
theorem normalizeUrl_not_idempotent_raw :
    normalizeUrl (lit "http://a/b c") =
      .ok { Scheme := lit "http", Host := lit "a", Path := lit "/b c", RawPath := lit "/b c" } ∧
    normalizeUrl (url.URL.String
        { Scheme := lit "http", Host := lit "a", Path := lit "/b c", RawPath := lit "/b c" }) =
      .ok { Scheme := lit "http", Host := lit "a", Path := lit "/b c" } ∧
    normalizeUrl (lit "http://a/#x y") =
      .ok { Scheme := lit "http", Host := lit "a", Path := lit "/", Fragment := lit "x y",
            RawFragment := lit "x y" } ∧
    normalizeUrl (url.URL.String
        { Scheme := lit "http", Host := lit "a", Path := lit "/", Fragment := lit "x y",
          RawFragment := lit "x y" }) =
      .ok { Scheme := lit "http", Host := lit "a", Path := lit "/", Fragment := lit "x y" } ∧
    normalizeUrl (lit "http://[::1%25" ++ [0xc3, 0xa9] ++ lit "]/") =
      .ok { Scheme := lit "http", Host := lit "[::1%" ++ [0xc3, 0xa9] ++ lit "]",
            Path := lit "/" } ∧
    normalizeUrl (url.URL.String
        { Scheme := lit "http", Host := lit "[::1%" ++ [0xc3, 0xa9] ++ lit "]",
          Path := lit "/" }) =
      .error ⟨"parse", lit "http://[::1%25%C3%A9]/", .EscapeError (lit "%C3")⟩ ∧
    normalizeUrl (lit "a%20b") = .ok { Scheme := lit "http", Path := lit "a b" } ∧
    normalizeUrl (url.URL.String { Scheme := lit "http", Path := lit "a b" }) =
      .error ⟨"parse", lit "http://a%20b", .EscapeError (lit "%20")⟩ := by
  decide

